import Mathlib

/-!
# mouse-reboot: the idle/reload loop of `track.c`

A shallow embedding of `src/track.c` and the properties of its poll loop.

Modelling conventions.

* C `int` coordinates and `time_t` seconds are `Int`.  `timediff` is a C `int`
  that receives the `time_t` difference `time(NULL) - last_movement`: the
  difference is narrowed to 32 bits by `to_int`, the reduction modulo `2^32` that
  GCC defines for this conversion.  The C operator `%` truncates towards zero,
  which is `Int.tmod`.
* Every call into Xlib, XInput2, libkmod and `time` is an input of the cycle that
  makes it: the value the call returned is a field of `poll`.
* A C string is the list of its characters without the terminating NUL; the
  strings searched for are ASCII, and `tolower` changes ASCII letters only.
-/

namespace Track

/-! ## Constants -/

/-- The `USB_MATCHING_STRING` define: no reload while this USB pointer is attached. -/
def USB_MATCHING_STRING : String := "Logitech"

/-- The `MOTION_SECONDS_THRESHOLD` define. -/
def MOTION_SECONDS_THRESHOLD : Int := 10

/-- The `MOTION_SECONDS_THRESHOLD_FORCED` define. -/
def MOTION_SECONDS_THRESHOLD_FORCED : Int := 100

/-- The value of `XISlavePointer` in the XInput2 protocol header. -/
def XISlavePointer : Int := 3

/-! ## Data -/

/-- The `struct coord` of the source. -/
structure coord where
  x : Int
  y : Int
deriving DecidableEq, Repr

/-- The fields of an `XIDeviceInfo` that `usb_is_plugged_in` reads. -/
structure XIDeviceInfo where
  deviceid : Int
  name : String
  use : Int
  enabled : Bool
deriving DecidableEq, Repr

/-! ## Case-insensitive search (`strcasestr`) -/

/-- The C function `tolower` in the "C" locale: only `A`..`Z` are mapped. -/
def tolower (c : Char) : Char :=
  if 'A' ≤ c ∧ c ≤ 'Z' then Char.ofNat (c.toNat + 32) else c

/-- Does `needle` match at the very start of `haystack`, ignoring case? -/
def starts_nocase : List Char → List Char → Bool
  | _, [] => true
  | [], _ :: _ => false
  | h :: hs, n :: ns => tolower h == tolower n && starts_nocase hs ns

/-- Whether `strcasestr haystack needle` is not `NULL`: the needle is searched at
every start position of the haystack, left to right. -/
def strcasestr : List Char → List Char → Bool
  | [], needle => starts_nocase [] needle
  | h :: hs, needle => starts_nocase (h :: hs) needle || strcasestr hs needle

/-! ## `has_xi` -/

/-- The function `has_xi`; its arguments are the result of `XQueryExtension` and
whether `XIQueryVersion` answered `BadRequest`. -/
def has_xi (query_extension : Bool) (version_bad_request : Bool) : Bool :=
  if !query_extension || version_bad_request then false else true

/-! ## `usb_is_plugged_in` -/

/-- The condition of the `if` in the device loop of `usb_is_plugged_in`. -/
def device_attached (device : XIDeviceInfo) : Bool :=
  device.use == XISlavePointer &&
  device.enabled &&
  strcasestr device.name.toList "USB".toList &&
  strcasestr device.name.toList USB_MATCHING_STRING.toList

/-- The function `usb_is_plugged_in`; the argument is the array that
`XIQueryDevice` returned.  The loop stops at the first attached device. -/
def usb_is_plugged_in : List XIDeviceInfo → Bool
  | [] => false
  | device :: devices => if device_attached device then true else usb_is_plugged_in devices

/-! ## `reload_module` -/

/-- The library calls that `reload_module` makes. -/
inductive kmod_call where
  | kmod_new
  | kmod_module_new_from_name
  | kmod_module_remove_module
  | usleep
  | kmod_module_insert_module
  | kmod_module_unref
  | kmod_unref
deriving DecidableEq, Repr

/-- What libkmod answers during one `reload_module`: whether `kmod_new` gave a
context, and the value `err` holds after each of the three module calls (zero,
or a negated `errno`).  An answer is read only if its call is made. -/
structure kmod_answers where
  ctx : Bool
  new_from_name : Int
  remove_module : Int
  insert_module : Int
deriving DecidableEq, Repr

/-- The function `reload_module`: its return value and the calls it made, in order. -/
def reload_module (k : kmod_answers) : Bool × List kmod_call :=
  if !k.ctx then
    (false, [.kmod_new])
  else if k.new_from_name < 0 then
    -- goto clean_ctx
    (false, [.kmod_new, .kmod_module_new_from_name, .kmod_unref])
  else if k.remove_module < 0 then
    -- goto clean_mod
    (false, [.kmod_new, .kmod_module_new_from_name, .kmod_module_remove_module,
             .kmod_module_unref, .kmod_unref])
  else if k.insert_module < 0 then
    -- goto clean_mod
    (false, [.kmod_new, .kmod_module_new_from_name, .kmod_module_remove_module, .usleep,
             .kmod_module_insert_module, .kmod_module_unref, .kmod_unref])
  else
    (true, [.kmod_new, .kmod_module_new_from_name, .kmod_module_remove_module, .usleep,
            .kmod_module_insert_module, .kmod_module_unref, .kmod_unref])

/-! ## `main` -/

/-- The locals of `main` that live from one iteration of the loop to the next. -/
structure main_state where
  old : coord
  reloaded : Bool
  last_movement : Int
deriving DecidableEq, Repr

/-- The locals of `main` as initialised; `now` is the `time(NULL)` of the
initialiser of `last_movement`. -/
def main_init (now : Int) : main_state :=
  { old := { x := -1, y := -1 }, reloaded := false, last_movement := now }

/-- The part of `main` before the loop: `none` is `return EXIT_FAILURE`. -/
def main_start (query_extension version_bad_request : Bool) (now : Int) : Option main_state :=
  if !has_xi query_extension version_bad_request then none else some (main_init now)

/-- What the outside world answers during one iteration of the loop:
whether `XOpenDisplay` gave a display, the devices `XIQueryDevice` lists, for
each screen the result of `XQueryPointer` and the root coordinates it stored,
the `time(NULL)` of the iteration and the answers of libkmod. -/
structure poll where
  display : Bool
  devices : List XIDeviceInfo
  screens : List (Bool × coord)
  now : Int
  kmod : kmod_answers
deriving DecidableEq, Repr

/-- The screen loop of `main`: the screens are asked in turn until one reports
the pointer; `none` is `pointer_found == false` after the loop. -/
def query_pointer : List (Bool × coord) → Option coord
  | [] => none
  | (found, pointer) :: screens => if found then some pointer else query_pointer screens

/-- The conversion of a `time_t` value to `int`: the value modulo `2^32` in the
range from `-2^31` to `2^31 - 1`. -/
def to_int (z : Int) : Int :=
  (z + 2147483648) % 4294967296 - 2147483648

/-- The left operand of the reload condition (forced reload). -/
def forced_due (timediff : Int) : Bool :=
  timediff.tmod MOTION_SECONDS_THRESHOLD_FORCED == 0

/-- The right operand of the reload condition (idle threshold, not yet reloaded). -/
def idle_due (timediff : Int) (reloaded : Bool) : Bool :=
  decide (timediff ≥ MOTION_SECONDS_THRESHOLD) && !reloaded

/-- The outcome of one iteration: the locals afterwards, and whether
`reload_module` was called. -/
structure cycle_result where
  state : main_state
  reload_called : Bool
deriving DecidableEq, Repr

/-- One iteration of the loop of `main`. -/
def main_cycle (st : main_state) (p : poll) : cycle_result :=
  if !p.display then
    -- continue
    { state := st, reload_called := false }
  else if usb_is_plugged_in p.devices then
    -- goto noop
    { state := st, reload_called := false }
  else
    match query_pointer p.screens with
    | none =>
      -- goto noop
      { state := st, reload_called := false }
    | some pointer =>
      if pointer.x == st.old.x && pointer.y == st.old.y then
        let timediff := to_int (p.now - st.last_movement)
        if forced_due timediff || idle_due timediff st.reloaded then
          { state := { old := pointer, reloaded := (reload_module p.kmod).1,
                       last_movement := st.last_movement },
            reload_called := true }
        else
          { state := { old := pointer, reloaded := st.reloaded,
                       last_movement := st.last_movement },
            reload_called := false }
      else
        { state := { old := pointer, reloaded := false, last_movement := p.now },
          reload_called := false }

/-- The locals of `main` after the iterations that `ps` describes. -/
def main_run : main_state → List poll → main_state
  | st, [] => st
  | st, p :: ps => main_run (main_cycle st p).state ps

/-- For each iteration that `ps` describes, whether it called `reload_module`. -/
def main_trace : main_state → List poll → List Bool
  | _, [] => []
  | st, p :: ps => (main_cycle st p).reload_called :: main_trace (main_cycle st p).state ps

/-! ## Vocabulary of the properties -/

/-- The iteration reaches the comparison with `old`, the pointer being at `c`:
the display opened, no external device is attached and a screen reported `c`. -/
def sampled (p : poll) (c : coord) : Prop :=
  p.display = true ∧ usb_is_plugged_in p.devices = false ∧ query_pointer p.screens = some c

instance (p : poll) (c : coord) : Decidable (sampled p c) := by
  unfold sampled; infer_instance

/-- The iteration leaves the loop body before the comparison with `old`:
`XOpenDisplay` failed, or an external device is attached, or no screen reported
the pointer. -/
def skipped (p : poll) : Prop :=
  p.display = false ∨ usb_is_plugged_in p.devices = true ∨ query_pointer p.screens = none

instance (p : poll) : Decidable (skipped p) := by
  unfold skipped; infer_instance

/-- The idle-threshold operand is what lets iteration `p` reload from `st`: the
iteration compares a motionless pointer and `idle_due` holds. -/
def idle_threshold_fires (st : main_state) (p : poll) : Prop :=
  sampled p st.old ∧ idle_due (to_int (p.now - st.last_movement)) st.reloaded = true

instance (st : main_state) (p : poll) : Decidable (idle_threshold_fires st p) := by
  unfold idle_threshold_fires; infer_instance

/-- An iteration at time `t` that finds the pointer at `c`, without external
device, one screen, and libkmod answering `k`. -/
def poll_at (t : Int) (c : coord) (k : kmod_answers) : poll :=
  { display := true, devices := [], screens := [(true, c)], now := t, kmod := k }

/-- Every libkmod call succeeds. -/
def kmod_ok : kmod_answers :=
  { ctx := true, new_from_name := 0, remove_module := 0, insert_module := 0 }

/-- The module lookup fails with `-ENOENT`. -/
def kmod_enoent : kmod_answers :=
  { ctx := true, new_from_name := -2, remove_module := 0, insert_module := 0 }

/-- An attached external pointer as `XIQueryDevice` lists it. -/
def usb_mouse : XIDeviceInfo :=
  { deviceid := 11, name := "Logitech USB Optical Mouse", use := XISlavePointer, enabled := true }

/-- An iteration at time `t` during which the external pointer is attached. -/
def poll_usb (t : Int) : poll :=
  { display := true, devices := [usb_mouse], screens := [(true, { x := 0, y := 0 })],
    now := t, kmod := kmod_ok }

/-- An iteration at time `t` in which `XOpenDisplay` fails. -/
def poll_nodisplay (t : Int) : poll :=
  { display := false, devices := [], screens := [], now := t, kmod := kmod_ok }

/-- The iterations at seconds `t0 + 1`, ..., `t0 + n` of a pointer resting at `c`,
every libkmod call succeeding. -/
def idle_run (c : coord) (t0 : Int) (n : Nat) : List poll :=
  (List.range n).map (fun i => poll_at (t0 + ((i + 1 : Nat) : Int)) c kmod_ok)

/-- Ten seconds after a movement at second 0, the pointer resting at (5,5) and
the external pointer being attached from second 3 to second 7. -/
def run_with_usb : List poll :=
  [poll_at 1 ⟨5, 5⟩ kmod_ok, poll_at 2 ⟨5, 5⟩ kmod_ok, poll_usb 3, poll_usb 4, poll_usb 5,
   poll_usb 6, poll_usb 7, poll_at 8 ⟨5, 5⟩ kmod_ok, poll_at 9 ⟨5, 5⟩ kmod_ok,
   poll_at 10 ⟨5, 5⟩ kmod_ok]

/-! ## One iteration -/

theorem coord_test_iff (a b : coord) : (a.x == b.x && a.y == b.y) = true ↔ a = b := by
  cases a; cases b; simp

/-- An iteration that compares a motionless pointer. -/
theorem main_cycle_still (st : main_state) (p : poll) (h : sampled p st.old) :
    main_cycle st p =
      if forced_due (to_int (p.now - st.last_movement)) ||
          idle_due (to_int (p.now - st.last_movement)) st.reloaded
      then { state := { old := st.old, reloaded := (reload_module p.kmod).1,
                        last_movement := st.last_movement },
             reload_called := true }
      else { state := st, reload_called := false } := by
  obtain ⟨hd, hu, hq⟩ := h
  have ht : (st.old.x == st.old.x && st.old.y == st.old.y) = true := (coord_test_iff _ _).2 rfl
  cases st
  simp only [main_cycle, hd, hu, hq] at ht ⊢
  simp [ht]

/-- An iteration that compares a pointer that moved. -/
theorem main_cycle_moved (st : main_state) (p : poll) (c : coord) (h : sampled p c)
    (hne : c ≠ st.old) :
    main_cycle st p =
      { state := { old := c, reloaded := false, last_movement := p.now },
        reload_called := false } := by
  obtain ⟨hd, hu, hq⟩ := h
  have ht : (c.x == st.old.x && c.y == st.old.y) = false := by
    rw [Bool.eq_false_iff]; exact fun h => hne ((coord_test_iff _ _).1 h)
  simp only [main_cycle, hd, hu, hq]
  simp [ht]

/-- An iteration that does not reach the comparison. -/
theorem main_cycle_noop (st : main_state) (p : poll)
    (h : p.display = false ∨ usb_is_plugged_in p.devices = true ∨ query_pointer p.screens = none) :
    main_cycle st p = { state := st, reload_called := false } := by
  unfold main_cycle
  rcases h with h | h | h
  · simp [h]
  · simp [h]
  · simp [h]

/-- A difference that fits an `int` is not changed by the conversion. -/
theorem to_int_eq (z : Int) (h1 : -2147483648 ≤ z) (h2 : z < 2147483648) : to_int z = z := by
  unfold to_int
  omega

theorem forced_due_iff (d : Int) : forced_due d = true ↔ d % 100 = 0 := by
  simp only [forced_due, MOTION_SECONDS_THRESHOLD_FORCED, beq_iff_eq]
  constructor
  · intro h
    exact Int.emod_eq_zero_of_dvd (Int.dvd_of_tmod_eq_zero h)
  · intro h
    exact Int.tmod_eq_zero_of_dvd (Int.dvd_of_emod_eq_zero h)

theorem idle_due_iff (d : Int) (r : Bool) : idle_due d r = true ↔ 10 ≤ d ∧ r = false := by
  simp [idle_due, MOTION_SECONDS_THRESHOLD]

/-- The reload condition of an iteration that compares a motionless pointer. -/
theorem reload_called_still (st : main_state) (p : poll) (h : sampled p st.old) :
    (main_cycle st p).reload_called =
      (forced_due (to_int (p.now - st.last_movement)) ||
        idle_due (to_int (p.now - st.last_movement)) st.reloaded) := by
  rw [main_cycle_still st p h]
  split <;> simp_all

/-! ## `strcasestr` finds exactly the infixes up to case -/

theorem starts_nocase_iff (h n : List Char) :
    starts_nocase h n = true ↔ n.map tolower <+: h.map tolower := by
  induction h generalizing n with
  | nil => cases n <;> simp [starts_nocase]
  | cons a as ih =>
    cases n with
    | nil => simp [starts_nocase]
    | cons b bs =>
      simp only [starts_nocase, Bool.and_eq_true, beq_iff_eq, ih, List.map_cons,
        List.cons_prefix_cons]
      constructor
      · rintro ⟨h1, h2⟩; exact ⟨h1.symm, h2⟩
      · rintro ⟨h1, h2⟩; exact ⟨h1.symm, h2⟩

theorem strcasestr_iff (h n : List Char) :
    strcasestr h n = true ↔ n.map tolower <:+: h.map tolower := by
  induction h with
  | nil =>
    simp only [strcasestr, starts_nocase_iff, List.map_nil, List.prefix_nil, List.infix_nil]
  | cons a as ih =>
    simp only [strcasestr, Bool.or_eq_true, starts_nocase_iff, ih, List.map_cons,
      List.infix_cons_iff]

theorem usb_is_plugged_in_iff (devices : List XIDeviceInfo) :
    usb_is_plugged_in devices = true ↔ ∃ d ∈ devices, device_attached d = true := by
  induction devices with
  | nil => simp [usb_is_plugged_in]
  | cons d ds ih =>
    by_cases hd : device_attached d = true
    · simp [usb_is_plugged_in, hd]
    · simp [usb_is_plugged_in, hd, ih]

/-! ## Runs of iterations -/

theorem main_run_append (st : main_state) (ps qs : List poll) :
    main_run st (ps ++ qs) = main_run (main_run st ps) qs := by
  induction ps generalizing st with
  | nil => rfl
  | cons p ps ih => simp [main_run, ih]

/-- The state before iteration `i + 1` is one step from the state before iteration `i`. -/
theorem main_run_take_succ (st : main_state) (ps : List poll) (i : Nat) (h : i < ps.length) :
    main_run st (ps.take (i + 1)) = (main_cycle (main_run st (ps.take i)) (ps.get ⟨i, h⟩)).state := by
  rw [List.take_succ, main_run_append, List.getElem?_eq_getElem h]
  simp [main_run]

theorem main_trace_length (st : main_state) (ps : List poll) :
    (main_trace st ps).length = ps.length := by
  induction ps generalizing st with
  | nil => rfl
  | cons p ps ih => simp [main_trace, ih]

/-- Entry `i` of the trace is the decision of iteration `i` from the state before it. -/
theorem main_trace_getElem? (st : main_state) (ps : List poll) (i : Nat) (h : i < ps.length) :
    (main_trace st ps)[i]? =
      some (main_cycle (main_run st (ps.take i)) (ps.get ⟨i, h⟩)).reload_called := by
  induction ps generalizing st i with
  | nil => simp at h
  | cons p ps ih =>
    cases i with
    | zero => simp [main_trace, main_run]
    | succ i =>
      have h2 : i < ps.length := by simpa using h
      simpa [main_trace, main_run] using ih (main_cycle st p).state i h2

/-- An iteration that is skipped or compares a motionless pointer keeps `old`
and `last_movement`. -/
theorem main_cycle_keeps (st : main_state) (p : poll) (h : skipped p ∨ sampled p st.old) :
    (main_cycle st p).state.old = st.old ∧
      (main_cycle st p).state.last_movement = st.last_movement := by
  rcases h with h | h
  · rw [main_cycle_noop st p h]; exact ⟨rfl, rfl⟩
  · rw [main_cycle_still st p h]; split <;> exact ⟨rfl, rfl⟩

theorem main_run_keeps (c : coord) (ps : List poll) (h : ∀ p ∈ ps, skipped p ∨ sampled p c)
    (st : main_state) (hst : st.old = c) :
    (main_run st ps).old = c ∧ (main_run st ps).last_movement = st.last_movement := by
  induction ps generalizing st with
  | nil => exact ⟨hst, rfl⟩
  | cons p ps ih =>
    have hp := main_cycle_keeps st p (by rw [hst]; exact h p (List.mem_cons_self _ _))
    have := ih (fun q hq => h q (List.mem_cons_of_mem _ hq)) (main_cycle st p).state
      (hp.1.trans hst)
    exact ⟨this.1, this.2.trans hp.2⟩

/-- An iteration either keeps `last_movement` or sets it to its own `time(NULL)`. -/
theorem main_cycle_last_movement (st : main_state) (p : poll) :
    (main_cycle st p).state.last_movement = st.last_movement ∨
      (main_cycle st p).state.last_movement = p.now := by
  unfold main_cycle
  split
  · exact Or.inl rfl
  · split
    · exact Or.inl rfl
    · split
      · exact Or.inl rfl
      · split
        · dsimp only
          split <;> exact Or.inl rfl
        · exact Or.inr rfl

theorem main_run_last_movement_ge (t : Int) (ps : List poll) (h : ∀ p ∈ ps, t ≤ p.now)
    (st : main_state) (hst : t ≤ st.last_movement) : t ≤ (main_run st ps).last_movement := by
  induction ps generalizing st with
  | nil => exact hst
  | cons p ps ih =>
    apply ih (fun q hq => h q (List.mem_cons_of_mem _ hq))
    rcases main_cycle_last_movement st p with e | e
    · rw [e]; exact hst
    · rw [e]; exact h p (List.mem_cons_self _ _)

theorem main_run_last_movement_lt (u : Int) (ps : List poll) (h : ∀ p ∈ ps, p.now < u)
    (st : main_state) (hst : st.last_movement < u) : (main_run st ps).last_movement < u := by
  induction ps generalizing st with
  | nil => exact hst
  | cons p ps ih =>
    apply ih (fun q hq => h q (List.mem_cons_of_mem _ hq))
    rcases main_cycle_last_movement st p with e | e
    · rw [e]; exact hst
    · rw [e]; exact h p (List.mem_cons_self _ _)

/-- While every reload succeeds, motionless iterations keep a set flag set. -/
theorem main_run_keeps_reloaded (c : coord) (ps : List poll)
    (h : ∀ p ∈ ps, sampled p c ∧ (reload_module p.kmod).1 = true)
    (st : main_state) (hst : st.old = c) (hr : st.reloaded = true) :
    (main_run st ps).reloaded = true := by
  induction ps generalizing st with
  | nil => exact hr
  | cons p ps ih =>
    have hp := h p (List.mem_cons_self _ _)
    have hk := main_cycle_keeps st p (Or.inr (by rw [hst]; exact hp.1))
    apply ih (fun q hq => h q (List.mem_cons_of_mem _ hq)) _ (hk.1.trans hst)
    rw [main_cycle_still st p (by rw [hst]; exact hp.1)]
    split
    · exact hp.2
    · exact hr

theorem main_run_skipped (ps : List poll) (h : ∀ p ∈ ps, skipped p) (st : main_state) :
    main_run st ps = st := by
  induction ps generalizing st with
  | nil => rfl
  | cons p ps ih =>
    simp only [main_run, main_cycle_noop st p (h p (List.mem_cons_self _ _))]
    exact ih (fun q hq => h q (List.mem_cons_of_mem _ hq)) st

/-- One motionless second of an idle period in which every reload succeeds, the
elapsed time fitting an `int`: after `i` seconds the flag is set exactly when
`10 ≤ i`, and second `i + 1` reloads exactly when `i + 1` is 10 or a multiple
of 100. -/
theorem still_second (c : coord) (t0 : Int) (i : Nat) (p : poll) (h : sampled p c)
    (hn : p.now = t0 + ((i + 1 : Nat) : Int)) (hk : (reload_module p.kmod).1 = true)
    (hb : i + 1 < 2147483648) :
    main_cycle { old := c, reloaded := decide (10 ≤ i), last_movement := t0 } p =
      { state := { old := c, reloaded := decide (10 ≤ i + 1), last_movement := t0 },
        reload_called := decide (i + 1 = 10 ∨ (i + 1) % 100 = 0) } := by
  rw [main_cycle_still _ _ h]
  have hd : to_int (p.now - t0) = ((i + 1 : Nat) : Int) := by
    rw [hn, to_int_eq _ (by omega) (by omega)]; omega
  simp only [hd, hk]
  have hf : forced_due ((i + 1 : Nat) : Int) = decide ((i + 1) % 100 = 0) := by
    rw [Bool.eq_iff_iff, forced_due_iff, decide_eq_true_iff]; omega
  have hi : idle_due ((i + 1 : Nat) : Int) (decide (10 ≤ i)) = decide (i + 1 = 10) := by
    rw [Bool.eq_iff_iff, idle_due_iff, decide_eq_true_iff, decide_eq_false_iff_not]; omega
  rw [hf, hi]
  by_cases h1 : (i + 1) % 100 = 0
  · have : 10 ≤ i + 1 := by omega
    simp [h1, this]
  · by_cases h2 : i + 1 = 10
    · simp [h2]
    · have : (10 ≤ i + 1) ↔ (10 ≤ i) := by omega
      simp [h1, h2, this]

/-- The state and the decisions over an idle period sampled once per second,
every reload succeeding, from the state a movement at `t0` left. -/
theorem still_seconds (c : coord) (t0 : Int) (ps : List poll)
    (hlen : ps.length < 2147483648)
    (hrun : ∀ i (h : i < ps.length), sampled (ps.get ⟨i, h⟩) c ∧
      (ps.get ⟨i, h⟩).now = t0 + ((i + 1 : Nat) : Int) ∧
      (reload_module (ps.get ⟨i, h⟩).kmod).1 = true) :
    (∀ i, i ≤ ps.length →
      main_run { old := c, reloaded := false, last_movement := t0 } (ps.take i) =
        { old := c, reloaded := decide (10 ≤ i), last_movement := t0 }) ∧
    (∀ i, i < ps.length →
      (main_trace { old := c, reloaded := false, last_movement := t0 } ps)[i]? =
        some (decide (i + 1 = 10 ∨ (i + 1) % 100 = 0))) := by
  have inv : ∀ i, i ≤ ps.length →
      main_run { old := c, reloaded := false, last_movement := t0 } (ps.take i) =
        { old := c, reloaded := decide (10 ≤ i), last_movement := t0 } := by
    intro i
    induction i with
    | zero => intro _; simp [main_run]
    | succ i ih =>
      intro hi
      have hi' : i < ps.length := hi
      obtain ⟨h1, h2, h3⟩ := hrun i hi'
      rw [main_run_take_succ _ _ i hi', ih (le_of_lt hi'),
        still_second c t0 i _ h1 h2 h3 (by omega)]
  refine ⟨inv, ?_⟩
  intro i hi
  obtain ⟨h1, h2, h3⟩ := hrun i hi
  rw [main_trace_getElem? _ _ i hi, inv i (le_of_lt hi),
    still_second c t0 i _ h1 h2 h3 (by omega)]

/-- Within the first nine seconds after a movement nothing happens, whether the
iteration compares the resting pointer or is skipped. -/
theorem quiet_second (c : coord) (t0 : Int) (i : Nat) (p : poll)
    (hn : p.now = t0 + ((i + 1 : Nat) : Int)) (hi : i + 1 < 10)
    (h : sampled p c ∨ skipped p) :
    main_cycle { old := c, reloaded := false, last_movement := t0 } p =
      { state := { old := c, reloaded := false, last_movement := t0 },
        reload_called := false } := by
  rcases h with h | h
  · rw [main_cycle_still _ _ h]
    have hd : to_int (p.now - t0) = ((i + 1 : Nat) : Int) := by
      rw [hn, to_int_eq _ (by omega) (by omega)]; omega
    have hf : forced_due ((i + 1 : Nat) : Int) = false := by
      rw [Bool.eq_false_iff, Ne, forced_due_iff]; omega
    have hidle : idle_due ((i + 1 : Nat) : Int) false = false := by
      rw [Bool.eq_false_iff, Ne, idle_due_iff]; omega
    simp only [hd, hf, hidle]
    rfl
  · exact main_cycle_noop _ p h

/-! ## The runs `idle_run` -/

theorem sampled_poll_at (t : Int) (c : coord) (k : kmod_answers) : sampled (poll_at t c k) c :=
  ⟨rfl, rfl, rfl⟩

theorem idle_run_length (c : coord) (t0 : Int) (n : Nat) : (idle_run c t0 n).length = n := by
  simp [idle_run]

theorem idle_run_get (c : coord) (t0 : Int) (n i : Nat) (h : i < (idle_run c t0 n).length) :
    (idle_run c t0 n).get ⟨i, h⟩ = poll_at (t0 + ((i + 1 : Nat) : Int)) c kmod_ok := by
  simp [idle_run]

theorem idle_run_mem (c : coord) (t0 : Int) (n : Nat) (p : poll) (h : p ∈ idle_run c t0 n) :
    sampled p c := by
  obtain ⟨i, _, rfl⟩ := List.mem_map.1 h
  exact sampled_poll_at _ _ _

/-- Sample `i + 1` of the run reloads from whatever state precedes it if the
`int` holding its elapsed time is a multiple of 100. -/
theorem idle_run_forced (c : coord) (t0 : Int) (n : Nat) (st : main_state) (hst : st.old = c)
    (i : Nat) (hi : i < n)
    (hf : forced_due (to_int (t0 + ((i + 1 : Nat) : Int) - st.last_movement)) = true) :
    (main_trace st (idle_run c t0 n))[i]? = some true := by
  have hlen : i < (idle_run c t0 n).length := by rw [idle_run_length]; exact hi
  have hk := main_run_keeps c ((idle_run c t0 n).take i)
    (fun p hp => Or.inr (idle_run_mem c t0 n p (List.mem_of_mem_take hp))) st hst
  have hs : sampled ((idle_run c t0 n).get ⟨i, hlen⟩)
      (main_run st ((idle_run c t0 n).take i)).old := by
    rw [hk.1, idle_run_get]; exact sampled_poll_at _ _ _
  rw [main_trace_getElem? st _ i hlen, reload_called_still _ _ hs, hk.2, idle_run_get]
  show some (forced_due (to_int (t0 + ((i + 1 : Nat) : Int) - st.last_movement)) || _) = some true
  rw [hf, Bool.true_or]

/-! ## The decision of one iteration -/

/-- For a positive elapsed time that fits an `int` the reload condition is: a
multiple of 100, or at least 10 with the flag clear. -/
theorem reload_called_pos (st : main_state) (p : poll) (h : sampled p st.old)
    (hpos : 0 < p.now - st.last_movement) (hfit : p.now - st.last_movement < 2147483648) :
    (main_cycle st p).reload_called = true ↔
      (0 < p.now - st.last_movement ∧ (p.now - st.last_movement) % 100 = 0) ∨
      (10 ≤ p.now - st.last_movement ∧ st.reloaded = false) := by
  rw [reload_called_still st p h, to_int_eq _ (by omega) hfit, Bool.or_eq_true,
    forced_due_iff, idle_due_iff]
  constructor
  · rintro (h1 | h1)
    · exact Or.inl ⟨hpos, h1⟩
    · exact Or.inr h1
  · rintro (h1 | h1)
    · exact Or.inl h1.2
    · exact Or.inr h1

/-- C3, the code at elapsed = 0: the pointer rests at (5,5), the last movement was
recorded at second 1000 and the iteration reads second 1000 again, so the
elapsed time is 0; `reload_module` is called although the flag is set, because
`0 % 100 == 0`. -/
theorem C3_reload_at_elapsed_zero :
    sampled (poll_at 1000 ⟨5, 5⟩ kmod_ok) ⟨5, 5⟩ ∧
    (poll_at 1000 ⟨5, 5⟩ kmod_ok).now - 1000 = 0 ∧
    (main_cycle { old := ⟨5, 5⟩, reloaded := true, last_movement := 1000 }
      (poll_at 1000 ⟨5, 5⟩ kmod_ok)).reload_called = true := by
  decide

/-- C5: an iteration in which the display cannot be opened, or an external
pointer is attached, or no screen reports the pointer, does not call
`reload_module` and leaves `old`, `last_movement` and `reloaded` as they were. -/
theorem C5_skipped_cycle_frame (st : main_state) (p : poll) (h : skipped p) :
    (main_cycle st p).reload_called = false ∧
    (main_cycle st p).state.old = st.old ∧
    (main_cycle st p).state.last_movement = st.last_movement ∧
    (main_cycle st p).state.reloaded = st.reloaded := by
  rw [main_cycle_noop st p h]
  exact ⟨rfl, rfl, rfl, rfl⟩

/-- C5 at an iteration with the external pointer attached, the flag being set. -/
theorem C5_skipped_cycle_frame_witness :
    skipped (poll_usb 3) ∧
    (main_cycle { old := ⟨5, 5⟩, reloaded := true, last_movement := 0 } (poll_usb 3)).reload_called
      = false ∧
    (main_cycle { old := ⟨5, 5⟩, reloaded := true, last_movement := 0 } (poll_usb 3)).state.old
      = ⟨5, 5⟩ ∧
    (main_cycle { old := ⟨5, 5⟩, reloaded := true, last_movement := 0 }
      (poll_usb 3)).state.last_movement = 0 ∧
    (main_cycle { old := ⟨5, 5⟩, reloaded := true, last_movement := 0 } (poll_usb 3)).state.reloaded
      = true :=
  ⟨by decide, C5_skipped_cycle_frame _ _ (by decide)⟩

/-- C10: on an iteration that compares a motionless pointer, `reload_module` is
called exactly when one of the two operands of the condition holds; if it is
called, `reloaded` becomes its result while `old` and `last_movement` stay; if it
is not called, the state stays as it was. -/
theorem C10_flag_is_reload_result (st : main_state) (p : poll) (h : sampled p st.old) :
    ((main_cycle st p).reload_called = true ↔
      (forced_due (to_int (p.now - st.last_movement)) = true ∨
        idle_due (to_int (p.now - st.last_movement)) st.reloaded = true)) ∧
    ((main_cycle st p).reload_called = true →
      (main_cycle st p).state.reloaded = (reload_module p.kmod).1 ∧
      (main_cycle st p).state.old = st.old ∧
      (main_cycle st p).state.last_movement = st.last_movement) ∧
    ((main_cycle st p).reload_called = false → (main_cycle st p).state = st) := by
  refine ⟨?_, ?_, ?_⟩
  · rw [reload_called_still st p h, Bool.or_eq_true]
  · rw [main_cycle_still st p h]
    split
    · intro _; exact ⟨rfl, rfl, rfl⟩
    · intro hc; simp at hc
  · rw [main_cycle_still st p h]
    split
    · intro hc; simp at hc
    · intro _; rfl

/-- C10 at a failed idle-threshold reload (flag clear afterwards) . -/
theorem C10_flag_is_reload_result_witness :
    sampled (poll_at 10 ⟨5, 5⟩ kmod_enoent) ⟨5, 5⟩ ∧
    (main_cycle { old := ⟨5, 5⟩, reloaded := false, last_movement := 0 }
      (poll_at 10 ⟨5, 5⟩ kmod_enoent)).reload_called = true ∧
    (main_cycle { old := ⟨5, 5⟩, reloaded := false, last_movement := 0 }
      (poll_at 10 ⟨5, 5⟩ kmod_enoent)).state.reloaded = false :=
  ⟨by decide, by decide,
    ((C10_flag_is_reload_result { old := ⟨5, 5⟩, reloaded := false, last_movement := 0 }
      (poll_at 10 ⟨5, 5⟩ kmod_enoent) (by decide)).2.1 (by decide)).1⟩

/-! ## `reload_module` -/

/-- C9: `reload_module` returns true exactly when the context was created and the
lookup, the removal and the insertion all succeeded (a failed lookup gives
false).  It asks for the context once, for the lookup once if the context
exists, for the removal once if the lookup succeeded and for the insertion once
if the removal succeeded, and makes none of these calls otherwise; the removal
comes before the pause and the pause before the insertion.  It drops the context
once if it was created and never otherwise, and drops the module once if the
lookup succeeded and never otherwise; the module is dropped after the removal
and the insertion, and the context after the module. -/
theorem C9_reload_module_outcome (k : kmod_answers) :
    ((reload_module k).1 = true ↔
      k.ctx = true ∧ 0 ≤ k.new_from_name ∧ 0 ≤ k.remove_module ∧ 0 ≤ k.insert_module) ∧
    (k.new_from_name < 0 → (reload_module k).1 = false) ∧
    (reload_module k).2.count kmod_call.kmod_new = 1 ∧
    (reload_module k).2.count kmod_call.kmod_module_new_from_name =
      (if k.ctx = true then 1 else 0) ∧
    (reload_module k).2.count kmod_call.kmod_module_remove_module =
      (if k.ctx = true ∧ 0 ≤ k.new_from_name then 1 else 0) ∧
    (reload_module k).2.count kmod_call.kmod_module_insert_module =
      (if k.ctx = true ∧ 0 ≤ k.new_from_name ∧ 0 ≤ k.remove_module then 1 else 0) ∧
    (kmod_call.kmod_module_insert_module ∈ (reload_module k).2 →
      (reload_module k).2.indexOf kmod_call.kmod_module_remove_module <
        (reload_module k).2.indexOf kmod_call.usleep ∧
      (reload_module k).2.indexOf kmod_call.usleep <
        (reload_module k).2.indexOf kmod_call.kmod_module_insert_module) ∧
    (reload_module k).2.count kmod_call.kmod_unref = (if k.ctx = true then 1 else 0) ∧
    (reload_module k).2.count kmod_call.kmod_module_unref =
      (if k.ctx = true ∧ 0 ≤ k.new_from_name then 1 else 0) ∧
    (kmod_call.kmod_module_unref ∈ (reload_module k).2 →
      (reload_module k).2.indexOf kmod_call.kmod_module_remove_module <
        (reload_module k).2.indexOf kmod_call.kmod_module_unref ∧
      (kmod_call.kmod_module_insert_module ∈ (reload_module k).2 →
        (reload_module k).2.indexOf kmod_call.kmod_module_insert_module <
          (reload_module k).2.indexOf kmod_call.kmod_module_unref) ∧
      (reload_module k).2.indexOf kmod_call.kmod_module_unref <
        (reload_module k).2.indexOf kmod_call.kmod_unref) := by
  by_cases h0 : k.ctx = true
  · by_cases h1 : k.new_from_name < 0
    · have e : reload_module k =
          (false, [.kmod_new, .kmod_module_new_from_name, .kmod_unref]) := by
        simp [reload_module, h0, h1]
      have h1' : ¬ 0 ≤ k.new_from_name := by omega
      rw [e]
      simp only [h0, h1, h1', false_and, and_false, if_true, if_false]
      decide
    · have h1' : 0 ≤ k.new_from_name := by omega
      by_cases h2 : k.remove_module < 0
      · have e : reload_module k =
            (false, [.kmod_new, .kmod_module_new_from_name, .kmod_module_remove_module,
              .kmod_module_unref, .kmod_unref]) := by
          simp [reload_module, h0, h1, h2]
        have h2' : ¬ 0 ≤ k.remove_module := by omega
        rw [e]
        simp only [h0, h1, h1', h2', false_and, and_false, and_self, true_and, if_true,
          if_false]
        decide
      · have h2' : 0 ≤ k.remove_module := by omega
        by_cases h3 : k.insert_module < 0
        · have e : reload_module k =
              (false, [.kmod_new, .kmod_module_new_from_name, .kmod_module_remove_module,
                .usleep, .kmod_module_insert_module, .kmod_module_unref, .kmod_unref]) := by
            simp [reload_module, h0, h1, h2, h3]
          have h3' : ¬ 0 ≤ k.insert_module := by omega
          rw [e]
          simp only [h0, h1, h1', h2', h3', and_false, and_self, true_and, if_true]
          decide
        · have e : reload_module k =
              (true, [.kmod_new, .kmod_module_new_from_name, .kmod_module_remove_module,
                .usleep, .kmod_module_insert_module, .kmod_module_unref, .kmod_unref]) := by
            simp [reload_module, h0, h1, h2, h3]
          have h3' : 0 ≤ k.insert_module := by omega
          rw [e]
          simp only [h0, h1, h1', h2', h3', and_self, true_and, if_true]
          decide
  · have h0' : k.ctx = false := by simpa using h0
    have e : reload_module k = (false, [.kmod_new]) := by
      simp [reload_module, h0']
    rw [e]
    simp only [h0', false_and, if_false, Bool.false_eq_true]
    exact ⟨trivial, fun _ => trivial, by decide, by decide, by decide, by decide, by decide,
      by decide, by decide, by decide⟩

/-! ## `usb_is_plugged_in` -/

/-- C8 as stated fails: a device whose name has the two words in lower case is
taken for the external pointer, although its name contains neither "USB" nor
"Logitech". -/
theorem C8_counterexample :
    usb_is_plugged_in
      [{ deviceid := 9, name := "logitech usb mouse", use := XISlavePointer, enabled := true }]
      = true ∧
    ¬ ("USB".toList <:+: "logitech usb mouse".toList) ∧
    ¬ (USB_MATCHING_STRING.toList <:+: "logitech usb mouse".toList) := by
  decide

/-- C8, amended: `usb_is_plugged_in` is true exactly when some listed device is
enabled, is a slave pointer and has a name in which "USB" and the vendor token
"Logitech" both occur up to the case of the letters; it is false for the empty
list. -/
theorem C8_usb_is_plugged_in_nocase (devices : List XIDeviceInfo) :
    (usb_is_plugged_in devices = true ↔
      ∃ d ∈ devices, d.enabled = true ∧ d.use = XISlavePointer ∧
        "USB".toList.map tolower <:+: d.name.toList.map tolower ∧
        "Logitech".toList.map tolower <:+: d.name.toList.map tolower) ∧
    usb_is_plugged_in [] = false := by
  refine ⟨?_, rfl⟩
  rw [usb_is_plugged_in_iff]
  constructor
  · rintro ⟨d, hd, ha⟩
    simp only [device_attached, Bool.and_eq_true, beq_iff_eq, strcasestr_iff] at ha
    exact ⟨d, hd, ha.1.1.2, ha.1.1.1, ha.1.2, ha.2⟩
  · rintro ⟨d, hd, h1, h2, h3, h4⟩
    refine ⟨d, hd, ?_⟩
    simp only [device_attached, Bool.and_eq_true, beq_iff_eq, strcasestr_iff]
    exact ⟨⟨⟨h2, h1⟩, h3⟩, h4⟩

/-! ## Movement and the first sample -/

/-- C4: an iteration that finds the pointer at a position other than `old` does
not call `reload_module`, stores the position in `old`, sets `last_movement` to
its `time(NULL)` and clears `reloaded`; and in whatever iterations follow, as
long as their times stay at or after that time and below it plus 10, the
idle-threshold operand lets none of them reload. -/
theorem C4_movement_resets (st : main_state) (p : poll) (c : coord) (h : sampled p c)
    (hne : c ≠ st.old) :
    (main_cycle st p).reload_called = false ∧
    (main_cycle st p).state.old = c ∧
    (main_cycle st p).state.last_movement = p.now ∧
    (main_cycle st p).state.reloaded = false ∧
    ∀ qs : List poll, (∀ q ∈ qs, p.now ≤ q.now ∧ q.now < p.now + 10) →
      ∀ i (hi : i < qs.length),
        ¬ idle_threshold_fires (main_run (main_cycle st p).state (qs.take i)) (qs.get ⟨i, hi⟩) := by
  rw [main_cycle_moved st p c h hne]
  refine ⟨rfl, rfl, rfl, rfl, ?_⟩
  intro qs hqs i hi hfire
  have hge : p.now ≤ (main_run { old := c, reloaded := false, last_movement := p.now }
      (qs.take i)).last_movement :=
    main_run_last_movement_ge p.now (qs.take i)
      (fun q hq => (hqs q (List.mem_of_mem_take hq)).1) _ (le_refl _)
  have hlast : (main_run { old := c, reloaded := false, last_movement := p.now }
      (qs.take i)).last_movement < p.now + 10 :=
    main_run_last_movement_lt (p.now + 10) (qs.take i)
      (fun q hq => (hqs q (List.mem_of_mem_take hq)).2) _ (by show p.now < p.now + 10; omega)
  have hq := hqs (qs.get ⟨i, hi⟩) (List.get_mem _ _ _)
  have h10 : 10 ≤ to_int ((qs.get ⟨i, hi⟩).now - (main_run
      { old := c, reloaded := false, last_movement := p.now } (qs.take i)).last_movement) :=
    ((idle_due_iff _ _).1 hfire.2).1
  rw [to_int_eq _ (by omega) (by omega)] at h10
  omega

/-- C4 at the movement to (6,5) at second 10, right after an idle reload. -/
theorem C4_movement_resets_witness :
    sampled (poll_at 10 ⟨6, 5⟩ kmod_ok) ⟨6, 5⟩ ∧
    (main_cycle { old := ⟨5, 5⟩, reloaded := true, last_movement := 0 }
      (poll_at 10 ⟨6, 5⟩ kmod_ok)).reload_called = false ∧
    (main_cycle { old := ⟨5, 5⟩, reloaded := true, last_movement := 0 }
      (poll_at 10 ⟨6, 5⟩ kmod_ok)).state.last_movement = 10 ∧
    (main_cycle { old := ⟨5, 5⟩, reloaded := true, last_movement := 0 }
      (poll_at 10 ⟨6, 5⟩ kmod_ok)).state.reloaded = false :=
  have w := C4_movement_resets { old := ⟨5, 5⟩, reloaded := true, last_movement := 0 }
    (poll_at 10 ⟨6, 5⟩ kmod_ok) ⟨6, 5⟩ (by decide) (by decide)
  ⟨by decide, w.1, w.2.2.1, w.2.2.2.1⟩

/-- C7 as stated fails at the position (-1,-1), the initial value of `old`: the
program starts at second 0, cannot open the display, and at second 10 first
finds the pointer, at (-1,-1); that iteration calls `reload_module`, sets
`reloaded` and leaves `last_movement` at 0. -/
theorem C7_counterexample :
    skipped (poll_nodisplay 0) ∧
    sampled (poll_at 10 ⟨-1, -1⟩ kmod_ok) ⟨-1, -1⟩ ∧
    main_trace (main_init 0) [poll_nodisplay 0, poll_at 10 ⟨-1, -1⟩ kmod_ok] = [false, true] ∧
    main_run (main_init 0) [poll_nodisplay 0, poll_at 10 ⟨-1, -1⟩ kmod_ok] =
      { old := ⟨-1, -1⟩, reloaded := true, last_movement := 0 } := by
  decide

/-- C7, amended: from the initial locals, after any number of skipped
iterations, the first iteration that finds the pointer, at a position other than
(-1,-1), does not call `reload_module`, stores the position in `old`, sets
`last_movement` to its `time(NULL)` and leaves `reloaded` clear. -/
theorem C7_first_sample_is_movement (t0 : Int) (pre : List poll) (p : poll) (c : coord)
    (hpre : ∀ q ∈ pre, skipped q) (h : sampled p c) (hc : c ≠ { x := -1, y := -1 }) :
    main_trace (main_init t0) pre = List.replicate pre.length false ∧
    main_cycle (main_run (main_init t0) pre) p =
      { state := { old := c, reloaded := false, last_movement := p.now },
        reload_called := false } := by
  constructor
  · generalize main_init t0 = st
    induction pre with
    | nil => rfl
    | cons q qs ih =>
      simp only [main_trace, main_cycle_noop st q (hpre q (List.mem_cons_self _ _)),
        List.length_cons, List.replicate_succ]
      rw [ih (fun r hr => hpre r (List.mem_cons_of_mem _ hr))]
  · rw [main_run_skipped pre hpre]
    exact main_cycle_moved (main_init t0) p c h hc

/-- C7 amended, at a first sample (5,5) at second 10 after a failed `XOpenDisplay`. -/
theorem C7_first_sample_is_movement_witness :
    (∀ q ∈ [poll_nodisplay 0], skipped q) ∧
    sampled (poll_at 10 ⟨5, 5⟩ kmod_ok) ⟨5, 5⟩ ∧
    main_cycle (main_run (main_init 0) [poll_nodisplay 0]) (poll_at 10 ⟨5, 5⟩ kmod_ok) =
      { state := { old := ⟨5, 5⟩, reloaded := false, last_movement := 10 },
        reload_called := false } :=
  ⟨by decide, by decide,
    (C7_first_sample_is_movement 0 [poll_nodisplay 0] (poll_at 10 ⟨5, 5⟩ kmod_ok) ⟨5, 5⟩
      (by decide) (by decide) (by decide)).2⟩

/-! ## The schedule of an idle period -/

/-- C1 as stated fails once the elapsed time no longer fits the `int` that holds
it: the pointer rests at (5,5) after a movement at second 0 and is sampled once
per second, every reload succeeding; sample 2147483696 (2^31 + 48) has elapsed
time 2147483696, neither 10 nor a multiple of 100, and yet `reload_module` is
called, because the `int` holds -2147483600. -/
theorem C1_counterexample :
    (∀ i (h : i < (idle_run ⟨5, 5⟩ 0 2147483696).length),
      sampled ((idle_run ⟨5, 5⟩ 0 2147483696).get ⟨i, h⟩) ⟨5, 5⟩ ∧
      ((idle_run ⟨5, 5⟩ 0 2147483696).get ⟨i, h⟩).now =
        (poll_at 0 ⟨5, 5⟩ kmod_ok).now + ((i + 1 : Nat) : Int) ∧
      (reload_module ((idle_run ⟨5, 5⟩ 0 2147483696).get ⟨i, h⟩).kmod).1 = true) ∧
    (main_trace (main_cycle (main_init 0) (poll_at 0 ⟨5, 5⟩ kmod_ok)).state
      (idle_run ⟨5, 5⟩ 0 2147483696))[2147483695]? = some true ∧
    to_int (2147483696 - 0) = -2147483600 ∧
    ¬ ((2147483696 - 0 : Int) = 10 ∨
      (0 < (2147483696 - 0 : Int) ∧ (2147483696 - 0 : Int) % 100 = 0)) := by
  refine ⟨?_, ?_, by decide, by decide⟩
  · intro i h
    rw [idle_run_get]
    refine ⟨sampled_poll_at _ _ _, ?_, ?_⟩
    · show (0 : Int) + ((i + 1 : Nat) : Int) = 0 + ((i + 1 : Nat) : Int)
      rfl
    · show (reload_module kmod_ok).1 = true
      decide
  · have hs : (main_cycle (main_init 0) (poll_at 0 ⟨5, 5⟩ kmod_ok)).state =
        { old := ⟨5, 5⟩, reloaded := false, last_movement := 0 } := by decide
    rw [hs]
    exact idle_run_forced ⟨5, 5⟩ 0 2147483696 _ rfl 2147483695 (by decide) (by decide)

/-- C1, amended: after an iteration that recorded a movement at `t0`, let fewer
than 2^31 iterations follow that find the pointer at the same place, one per
second at `t0 + 1`, `t0 + 2`, ..., without external device and with every reload
succeeding.  Then `reload_module` is called exactly in the iterations whose
elapsed time is 10 or a positive multiple of 100; in none before elapsed = 10;
and, over 100 such iterations, exactly twice. -/
theorem C1_reload_schedule (st0 : main_state) (p0 : poll) (c : coord) (ps : List poll)
    (hmove : sampled p0 c) (hne : c ≠ st0.old) (hlen : ps.length < 2147483648)
    (hrun : ∀ i (h : i < ps.length), sampled (ps.get ⟨i, h⟩) c ∧
      (ps.get ⟨i, h⟩).now = p0.now + ((i + 1 : Nat) : Int) ∧
      (reload_module (ps.get ⟨i, h⟩).kmod).1 = true) :
    (∀ i (h : i < ps.length),
      (main_trace (main_cycle st0 p0).state ps)[i]? =
        some (decide ((ps.get ⟨i, h⟩).now - p0.now = 10 ∨
          (0 < (ps.get ⟨i, h⟩).now - p0.now ∧ ((ps.get ⟨i, h⟩).now - p0.now) % 100 = 0)))) ∧
    (∀ i (h : i < ps.length), (ps.get ⟨i, h⟩).now - p0.now < 10 →
      (main_trace (main_cycle st0 p0).state ps)[i]? = some false) ∧
    (ps.length = 100 → (main_trace (main_cycle st0 p0).state ps).count true = 2) := by
  rw [main_cycle_moved st0 p0 c hmove hne]
  have key := (still_seconds c p0.now ps hlen hrun).2
  refine ⟨?_, ?_, ?_⟩
  · intro i h
    rw [key i h, (hrun i h).2.1]
    congr 1
    rw [decide_eq_decide]
    omega
  · intro i h hlt
    rw [key i h]
    rw [(hrun i h).2.1] at hlt
    congr 1
    rw [decide_eq_false_iff_not]
    omega
  · intro h100
    have e : main_trace { old := c, reloaded := false, last_movement := p0.now } ps =
        (List.range 100).map (fun i => decide (i + 1 = 10 ∨ (i + 1) % 100 = 0)) := by
      apply List.ext_getElem?
      intro i
      by_cases hi : i < ps.length
      · rw [key i hi, List.getElem?_map, List.getElem?_range (by omega)]
        rfl
      · rw [List.getElem?_eq_none (by rw [main_trace_length]; omega),
          List.getElem?_eq_none (by simp; omega)]
    show (main_trace { old := c, reloaded := false, last_movement := p0.now } ps).count true = 2
    rw [e]
    decide

/-- C1 amended, at the pointer resting at (5,5) from second 0 to second 100: two
reloads. -/
theorem C1_reload_schedule_witness :
    (main_trace (main_cycle (main_init 0) (poll_at 0 ⟨5, 5⟩ kmod_ok)).state
      (idle_run ⟨5, 5⟩ 0 100)).count true = 2 :=
  (C1_reload_schedule (main_init 0) (poll_at 0 ⟨5, 5⟩ kmod_ok) ⟨5, 5⟩ (idle_run ⟨5, 5⟩ 0 100)
    (by decide) (by decide) (by decide) (by decide)).2.2 (by decide)

/-! ## Debounce -/

/-- C2 as stated fails in two ways.  When the reload fails: the pointer rests at
(5,5) since second 0 and the module lookup fails; the iteration at second 10
calls `reload_module` and leaves `reloaded` clear, and the iteration at second
11, which is no multiple of 100, calls it again through the idle-threshold
operand.  When the elapsed time does not fit the `int`: after a successful reload
at second 10, the iteration at second 2147483696, no multiple of 100, calls
`reload_module` through the forced operand. -/
theorem C2_counterexample :
    (main_trace { old := ⟨5, 5⟩, reloaded := false, last_movement := 0 }
        [poll_at 10 ⟨5, 5⟩ kmod_enoent, poll_at 11 ⟨5, 5⟩ kmod_enoent] = [true, true] ∧
      (main_cycle { old := ⟨5, 5⟩, reloaded := false, last_movement := 0 }
        (poll_at 10 ⟨5, 5⟩ kmod_enoent)).state.reloaded = false ∧
      ¬ ((11 - 0 : Int) % 100 = 0) ∧
      idle_threshold_fires
        (main_cycle { old := ⟨5, 5⟩, reloaded := false, last_movement := 0 }
          (poll_at 10 ⟨5, 5⟩ kmod_enoent)).state
        (poll_at 11 ⟨5, 5⟩ kmod_enoent)) ∧
    (main_trace { old := ⟨5, 5⟩, reloaded := false, last_movement := 0 }
        [poll_at 10 ⟨5, 5⟩ kmod_ok, poll_at 2147483696 ⟨5, 5⟩ kmod_ok] = [true, true] ∧
      (main_cycle { old := ⟨5, 5⟩, reloaded := false, last_movement := 0 }
        (poll_at 10 ⟨5, 5⟩ kmod_ok)).state.reloaded = true ∧
      ¬ ((2147483696 - 0 : Int) % 100 = 0)) := by
  decide

/-- C2, amended: in an idle period in which every reload succeeds, once an
iteration has called `reload_module`, `reloaded` is set before every later
iteration of the period, the idle-threshold operand lets none of them reload,
and a later iteration that calls `reload_module` does so through the forced
operand, at an elapsed time that is a multiple of 100 if it fits an `int`.  An
iteration whose reload fails leaves `reloaded` clear. -/
theorem C2_debounce_after_success (st : main_state) (ps : List poll)
    (hrun : ∀ p ∈ ps, sampled p st.old ∧ (reload_module p.kmod).1 = true)
    (i j : Nat) (hij : i < j) (hj : j < ps.length)
    (hi : (main_trace st ps)[i]? = some true) :
    (main_run st (ps.take j)).reloaded = true ∧
    ¬ idle_threshold_fires (main_run st (ps.take j)) (ps.get ⟨j, hj⟩) ∧
    ((main_trace st ps)[j]? = some true →
      forced_due (to_int ((ps.get ⟨j, hj⟩).now - st.last_movement)) = true ∧
      (-2147483648 ≤ (ps.get ⟨j, hj⟩).now - st.last_movement →
        (ps.get ⟨j, hj⟩).now - st.last_movement < 2147483648 →
        ((ps.get ⟨j, hj⟩).now - st.last_movement) % 100 = 0)) ∧
    (∀ q : poll, sampled q st.old → (main_cycle st q).reload_called = true →
      (reload_module q.kmod).1 = false → (main_cycle st q).state.reloaded = false) := by
  have hilt : i < ps.length := by omega
  have hstill : ∀ n, ∀ p ∈ ps.take n, skipped p ∨ sampled p st.old := fun n p hp =>
    Or.inr (hrun p (List.mem_of_mem_take hp)).1
  -- the state after iteration `i` has the flag set
  have hflag : (main_run st (ps.take (i + 1))).reloaded = true := by
    rw [main_trace_getElem? st ps i hilt] at hi
    have hc : (main_cycle (main_run st (ps.take i)) (ps.get ⟨i, hilt⟩)).reload_called = true := by
      simpa using hi
    have hk := main_run_keeps st.old (ps.take i) (hstill i) st rfl
    have hs := hrun (ps.get ⟨i, hilt⟩) (List.get_mem _ _ _)
    have hsamp : sampled (ps.get ⟨i, hilt⟩) (main_run st (ps.take i)).old := by
      rw [hk.1]; exact hs.1
    have hcond := (reload_called_still _ _ hsamp).symm.trans hc
    rw [main_run_take_succ st ps i hilt, main_cycle_still _ _ hsamp, if_pos hcond]
    exact hs.2
  -- and it stays set up to iteration `j`
  have hsplit : ps.take j = ps.take (i + 1) ++ (ps.take j).drop (i + 1) := by
    have := List.take_append_drop (i + 1) (ps.take j)
    rw [List.take_take, Nat.min_eq_left (by omega)] at this
    exact this.symm
  have hk1 := main_run_keeps st.old (ps.take (i + 1)) (hstill (i + 1)) st rfl
  have hj1 : (main_run st (ps.take j)).reloaded = true := by
    rw [hsplit, main_run_append]
    apply main_run_keeps_reloaded st.old _ _ _ hk1.1 hflag
    intro p hp
    exact hrun p (List.mem_of_mem_take (List.mem_of_mem_drop hp))
  have hkj := main_run_keeps st.old (ps.take j) (hstill j) st rfl
  have hsj := hrun (ps.get ⟨j, hj⟩) (List.get_mem _ _ _)
  have hnot : idle_due (to_int ((ps.get ⟨j, hj⟩).now - (main_run st (ps.take j)).last_movement))
      (main_run st (ps.take j)).reloaded = false := by
    rw [hj1, Bool.eq_false_iff, Ne, idle_due_iff]
    simp
  refine ⟨hj1, ?_, ?_, ?_⟩
  · intro hfire
    exact Bool.false_ne_true (hnot.symm.trans hfire.2)
  · intro hcall
    rw [main_trace_getElem? st ps j hj] at hcall
    have hc : (main_cycle (main_run st (ps.take j)) (ps.get ⟨j, hj⟩)).reload_called = true := by
      simpa using hcall
    rw [reload_called_still _ _ (by rw [hkj.1]; exact hsj.1), hnot, Bool.or_false, hkj.2] at hc
    refine ⟨hc, fun h1 h2 => ?_⟩
    rw [to_int_eq _ h1 h2, forced_due_iff] at hc
    exact hc
  · intro q hq hcall hfail
    rw [main_cycle_still st q hq] at hcall ⊢
    split
    · exact hfail
    · rename_i hn
      rw [if_neg hn] at hcall
      exact absurd hcall Bool.false_ne_true

/-- C2 amended, over the seconds 1 to 100 of an idle period: the reload at
second 10 sets the flag and the reload at second 100 is the forced one. -/
theorem C2_debounce_after_success_witness :
    (main_run { old := ⟨5, 5⟩, reloaded := false, last_movement := 0 }
      ((idle_run ⟨5, 5⟩ 0 100).take 99)).reloaded = true :=
  (C2_debounce_after_success { old := ⟨5, 5⟩, reloaded := false, last_movement := 0 }
    (idle_run ⟨5, 5⟩ 0 100) (by decide) 9 99 (by decide) (by decide) (by decide)).1

/-! ## An external device during the idle period -/

/-- C6: after an iteration that recorded a movement at `t0`, let ten iterations
follow, one per second at `t0 + 1`, ..., `t0 + 10`; in each of the first nine
either the external device is attached or the pointer is found at the same
place, and in the tenth the pointer is found at the same place without external
device.  Then `reload_module` is not called in the first nine and is called in
the tenth, `last_movement` still being `t0` there, so that the elapsed time of
the tenth is 10. -/
theorem C6_external_device_carry_over (st0 : main_state) (p0 : poll) (c : coord)
    (ps : List poll) (hmove : sampled p0 c) (hne : c ≠ st0.old) (hlen : ps.length = 10)
    (hrun : ∀ i (h : i < ps.length),
      (ps.get ⟨i, h⟩).now = p0.now + ((i + 1 : Nat) : Int) ∧
      (sampled (ps.get ⟨i, h⟩) c ∨
        (i + 1 < 10 ∧ (ps.get ⟨i, h⟩).display = true ∧
          usb_is_plugged_in (ps.get ⟨i, h⟩).devices = true))) :
    main_trace (main_cycle st0 p0).state ps = List.replicate 9 false ++ [true] ∧
    (main_run (main_cycle st0 p0).state (ps.take 9)).last_movement = p0.now ∧
    ∀ h : 9 < ps.length,
      (ps.get ⟨9, h⟩).now - (main_run (main_cycle st0 p0).state (ps.take 9)).last_movement
        = 10 := by
  rw [main_cycle_moved st0 p0 c hmove hne]
  have inv : ∀ i, i ≤ 9 →
      main_run { old := c, reloaded := false, last_movement := p0.now } (ps.take i) =
        { old := c, reloaded := false, last_movement := p0.now } := by
    intro i
    induction i with
    | zero => intro _; simp [main_run]
    | succ i ih =>
      intro hi
      have hi' : i < ps.length := by omega
      obtain ⟨h1, h2⟩ := hrun i hi'
      rw [main_run_take_succ _ _ i hi', ih (by omega),
        quiet_second c p0.now i _ h1 (by omega) (h2.imp id (fun h => Or.inr (Or.inl h.2.2)))]
  have h9 : 9 < ps.length := by omega
  have hlast : sampled (ps.get ⟨9, h9⟩) c := by
    rcases (hrun 9 h9).2 with h | h
    · exact h
    · omega
  refine ⟨?_, ?_, ?_⟩
  · apply List.ext_getElem?
    intro i
    by_cases hi : i < 9
    · have hi' : i < ps.length := by omega
      obtain ⟨h1, h2⟩ := hrun i hi'
      rw [main_trace_getElem? _ _ i hi', inv i (by omega),
        quiet_second c p0.now i _ h1 (by omega) (h2.imp id (fun h => Or.inr (Or.inl h.2.2))),
        List.getElem?_append_left (by simpa using hi), List.getElem?_replicate]
      simp [hi]
    · by_cases hi9 : i = 9
      · subst hi9
        rw [main_trace_getElem? _ _ 9 h9, inv 9 (le_refl _),
          reload_called_still _ _ hlast]
        have hd : to_int ((ps.get ⟨9, h9⟩).now - p0.now) = 10 := by
          rw [(hrun 9 h9).1, to_int_eq _ (by omega) (by omega)]; omega
        simp only [hd]
        rfl
      · rw [List.getElem?_eq_none (by rw [main_trace_length]; omega),
          List.getElem?_eq_none (by simp; omega)]
  · rw [inv 9 (le_refl _)]
  · intro h
    rw [inv 9 (le_refl _), (hrun 9 h).1]
    show p0.now + ((9 + 1 : Nat) : Int) - p0.now = 10
    omega

/-- C6 at the pointer resting at (5,5) since second 0 with the external pointer
attached from second 3 to second 7: the only reload is the one at second 10. -/
theorem C6_external_device_carry_over_witness :
    main_trace (main_cycle (main_init 0) (poll_at 0 ⟨5, 5⟩ kmod_ok)).state run_with_usb =
      [false, false, false, false, false, false, false, false, false, true] :=
  (C6_external_device_carry_over (main_init 0) (poll_at 0 ⟨5, 5⟩ kmod_ok) ⟨5, 5⟩ run_with_usb
    (by decide) (by decide) (by decide) (by decide)).1

end Track
